import Mathlib

/-!
Shallow embedding of the Castle Wars battle and economy engine
(`castle_wars.py`, `constants.py`).

Modelling conventions:
* Python integers are modelled as `ℤ` (list indices and loop fuel as `ℕ`).
* Python floats are modelled as exact rationals `ℚ`; in particular the
  float literals `0.1`, `0.9`, `0.4` become `1/10`, `9/10`, `2/5`.
* Methods that mutate `self` become functions returning the updated record.
* `random.choice(xs)` and `random.randint` draws are supplied by oracle
  arguments (an index stream `ℕ → ℕ`, or the drawn number itself).
* `sys.exit` and uncaught exceptions are modelled as `Option.none`.
-/

/-- constants.py: `CASTLE_HP = 10000`. -/
def CASTLE_HP : ℤ := 10000

/-- constants.py: `CASTLE_RECEIVE_DAMAGE = 0.1` (Python float, modelled as the
exact rational 1/10). -/
def CASTLE_RECEIVE_DAMAGE : ℚ := 1/10

/-- constants.py: `ATTACK_RATE = 5` (used in rational arithmetic because a
unit's attack speed becomes fractional after `+0.1` upgrades). -/
def ATTACK_RATE : ℚ := 5

/-- constants.py: `GOLD = 1000`. -/
def GOLD : ℤ := 1000

/-- constants.py: `UNIT_PRICE = 5`. -/
def UNIT_PRICE : ℤ := 5

/-- constants.py: `REWARD_FOR_KILLING = 1`. -/
def REWARD_FOR_KILLING : ℤ := 1

/-- constants.py: `UPGRADE_GOLD_REWARD = 1`. -/
def UPGRADE_GOLD_REWARD : ℤ := 1

/-- constants.py: `SPAWN_COST = 200`. -/
def SPAWN_COST : ℤ := 200

/-- constants.py: `UNIT_HP = 5`. -/
def UNIT_HP : ℚ := 5

/-- constants.py: `UNIT_DMG = 1`. -/
def UNIT_DMG : ℚ := 1

/-- constants.py: `UNIT_SPD = 1`. -/
def UNIT_SPD : ℚ := 1

/-- constants.py: `UNIT_ATSPD = 1`. -/
def UNIT_ATSPD : ℚ := 1

/-- constants.py: `UNIT_REGEN = 0`. -/
def UNIT_REGEN : ℚ := 0

/-- Unit attributes that can be upgraded (`UNIT_UPGRADES` keys, in dict
insertion order: hp, dmg, speed, attack_speed, regen). -/
inductive UAttr where
  | hp
  | dmg
  | speed
  | attack_speed
  | regen
deriving DecidableEq

/-- constants.py: `UNIT_UPGRADES` (per-level attribute delta; `attack_speed`
is the Python float `0.1`, modelled as 1/10). -/
def UNIT_UPGRADES : UAttr → ℚ
  | .hp => 5
  | .dmg => 1
  | .speed => 1
  | .attack_speed => 1/10
  | .regen => 1

/-- constants.py: `UNIT_UPGRADE_PRICES` (all 100). -/
def UNIT_UPGRADE_PRICES : UAttr → ℤ
  | .hp => 100
  | .dmg => 100
  | .speed => 100
  | .attack_speed => 100
  | .regen => 100

/-- Castle attributes that can be upgraded (`CASTLE_UPGRADES` keys, in dict
insertion order: income, dmg, regen, hp). -/
inductive CAttr where
  | income
  | dmg
  | regen
  | hp
deriving DecidableEq

/-- constants.py: `CASTLE_UPGRADES`. -/
def CASTLE_UPGRADES : CAttr → ℤ
  | .income => 10
  | .dmg => 5
  | .regen => 10
  | .hp => 1000

/-- constants.py: `CASTLE_UPGRADE_PRICES`. -/
def CASTLE_UPGRADE_PRICES : CAttr → ℤ
  | .income => 100
  | .dmg => 300
  | .regen => 200
  | .hp => 500

/-- constants.py: `COSTS`, the per-action gold costs used by the AI.
All action identifiers occurring in the AI strategy tables are covered;
the default 0 branch is unreachable for those tables. -/
def COSTS : String → ℤ
  | "spawn" => SPAWN_COST
  | "unit_hp" => UNIT_UPGRADE_PRICES .hp
  | "unit_dmg" => UNIT_UPGRADE_PRICES .dmg
  | "unit_attack_speed" => UNIT_UPGRADE_PRICES .attack_speed
  | "unit_regen" => UNIT_UPGRADE_PRICES .regen
  | "income" => CASTLE_UPGRADE_PRICES .income
  | "castle_dmg" => CASTLE_UPGRADE_PRICES .dmg
  | "castle_regen" => CASTLE_UPGRADE_PRICES .regen
  | "castle_hp" => CASTLE_UPGRADE_PRICES .hp
  | _ => 0

/-- Whether a combatant is a `Unit` or a `Castle`; this decides which
override of `get_damage` dynamic dispatch selects. -/
inductive CKind where
  | unit
  | castle
deriving DecidableEq

/-- Health-carrying state shared by `Unit` and `Castle`
(`GameObject` fields `hp`, `max_hp`, `regen`). -/
structure Cmb where
  kind : CKind
  hp : ℚ
  max_hp : ℚ
  regen : ℚ
deriving DecidableEq

/-- `GameObject.get_damage` / `Castle.get_damage`:
the unit override subtracts the damage and clamps health at zero;
the castle override first multiplies by `CASTLE_RECEIVE_DAMAGE` and
substitutes 1 when the mitigated amount equals zero, then subtracts
and clamps at zero. -/
def Cmb.get_damage (c : Cmb) (damage : ℚ) : Cmb :=
  match c.kind with
  | .unit =>
      let h := c.hp - damage
      { c with hp := if h < 0 then 0 else h }
  | .castle =>
      let d := damage * CASTLE_RECEIVE_DAMAGE
      let d := if d = 0 then 1 else d
      let h := c.hp - d
      { c with hp := if h < 0 then 0 else h }

/-- `GameObject.regenerate`: if below max health, add `regen` and clamp at
`max_hp`. -/
def Cmb.regenerate (c : Cmb) : Cmb :=
  if c.hp < c.max_hp then
    let h := c.hp + c.regen
    { c with hp := if h > c.max_hp then c.max_hp else h }
  else c

/-- One step of the health history examined by the spec: either a
`get_damage(d)` call or a `regenerate()` call. -/
inductive DRop where
  | damage (d : ℚ)
  | regen
deriving DecidableEq

/-- Apply one `get_damage`/`regenerate` call. -/
def Cmb.apply_op (c : Cmb) : DRop → Cmb
  | .damage d => c.get_damage d
  | .regen => c.regenerate

/-- An operation is within the spec's scope when any damage amount is
non-negative. -/
def DRop.nonneg : DRop → Prop
  | .damage d => 0 ≤ d
  | .regen => True

instance : DecidablePred DRop.nonneg := by
  intro op
  cases op <;> simp [DRop.nonneg] <;> infer_instance

/-- Combat-relevant fields of `Unit` (`hp`, `max_hp`, `dmg`, `attack_speed`,
`attack_rate`, `regen`). -/
structure UnitC where
  hp : ℚ
  max_hp : ℚ
  dmg : ℚ
  attack_speed : ℚ
  attack_rate : ℚ
  regen : ℚ
deriving DecidableEq

/-- The `while self.attack_rate >= ATTACK_RATE` loop inside `Unit.attack`:
each iteration applies `self.dmg` to the target and subtracts
`ATTACK_RATE` from the accumulator. Returns the accumulator value at loop
exit together with the damaged target. -/
def attack_loop (rate : ℚ) (dmg : ℚ) (t : Cmb) : ℚ × Cmb :=
  if h : ATTACK_RATE ≤ rate then
    attack_loop (rate - ATTACK_RATE) dmg (t.get_damage dmg)
  else
    (rate, t)
termination_by (⌈rate⌉).toNat
decreasing_by
  have h5 : (5 : ℚ) ≤ rate := by simpa [ATTACK_RATE] using h
  have hc : (5 : ℤ) ≤ ⌈rate⌉ := by
    have := Int.le_ceil rate
    exact_mod_cast le_trans h5 this
  have heq : ⌈rate - ATTACK_RATE⌉ = ⌈rate⌉ - 5 := by
    have : rate - ATTACK_RATE = rate - ((5 : ℤ) : ℚ) := by
      norm_num [ATTACK_RATE]
    rw [this, Int.ceil_sub_int]
  rw [heq]
  omega

/-- `Unit.attack`: run the hit loop, then — because the `else` of a Python
`while ... else` runs whenever the loop ends without `break`, and this loop
has no `break` — unconditionally add `attack_speed` to the accumulator. -/
def UnitC.attack (u : UnitC) (t : Cmb) : UnitC × Cmb :=
  let r := attack_loop u.attack_rate u.dmg t
  ({ u with attack_rate := r.1 + u.attack_speed }, r.2)

/-- Stable insertion of one element into a list already sorted by `key`
ascending: the new element goes after every element with a key not greater
than its own, which reproduces the tie behaviour of Python's stable sort. -/
def insertByVal {α : Type} (key : α → ℤ) (x : α) : List α → List α
  | [] => [x]
  | y :: ys => if key x < key y then x :: y :: ys else y :: insertByVal key x ys

/-- Stable sort by `key` ascending (models Python's `sorted(..., key=...)`,
which is stable): elements are inserted left to right, each after earlier
elements with equal keys. -/
def sortByVal {α : Type} (key : α → ℤ) (l : List α) : List α :=
  l.foldl (fun acc x => insertByVal key x acc) []

/-- `AIPlayer.convert_percentage`. The percentage dict is modelled as an
association list in dict insertion order; actions are sorted by ascending
percentage (stable), a running total is accumulated, and each running total
is paired with its action. A running total above 100 makes the program
exit (`sys.exit`), modelled as `none`. Since running totals are strictly
increasing for positive percentages, the association list has distinct keys
just as the Python dict does. -/
def convert_percentage (percentage : List (String × ℤ)) : Option (List (ℤ × String)) :=
  go 0 (sortByVal (fun kv => kv.2) percentage)
where
  go : ℤ → List (String × ℤ) → Option (List (ℤ × String))
    | _, [] => some []
    | n, kv :: rest =>
        let n' := n + kv.2
        if n' > 100 then none
        else (go n' rest).map (fun l => (n', kv.1) :: l)

/-- `AIPlayer.build_computer_strategy`: keep only the actions whose cost is
affordable (dict iteration order = insertion order), sum their percentages,
and convert the filtered table. -/
def build_computer_strategy (percentage : List (String × ℤ)) (gold : ℤ) :
    Option (List (ℤ × String)) × ℤ :=
  let filtered := percentage.filter (fun kv => COSTS kv.1 ≤ gold)
  let total := (filtered.map (fun kv => kv.2)).sum
  (convert_percentage filtered, total)

/-- `AIPlayer.random_choice`: scan the strategy keys in ascending order and
return the action at the first key that the drawn number does not exceed;
`none` when the number exceeds every key (Python falls through and returns
`None`). The drawn number `random_number` is the value
`random.randint(1, max_rand)` produced, supplied here as an oracle. -/
def random_choice (strategy : List (ℤ × String)) (random_number : ℤ) : Option String :=
  ((sortByVal (fun kv => kv.1) strategy).find? (fun kv => random_number ≤ kv.1)).map
    (fun kv => kv.2)

/-- Castle object state (`Castle.__init__`): health is rational because
castle damage is mitigated by the float factor; the remaining attributes
stay integral. -/
structure CastleSt where
  hp : ℚ
  max_hp : ℚ
  dmg : ℤ
  regen : ℤ
  income : ℤ
deriving DecidableEq

/-- Economy-relevant state of `Player` (and `AIPlayer`). Unit attribute
values are rational because `attack_speed` upgrades add the float `0.1`;
gold, prices, levels and counters are integers as in Python. -/
structure PState where
  gold : ℤ
  income : ℤ
  spawns : ℤ
  castle : CastleSt
  unit_hp : ℚ
  unit_dmg : ℚ
  unit_speed : ℚ
  unit_attack_speed : ℚ
  unit_regen : ℚ
  unit_hp_lvl : ℤ
  unit_dmg_lvl : ℤ
  unit_speed_lvl : ℤ
  unit_attack_speed_lvl : ℤ
  unit_regen_lvl : ℤ
  unit_price : ℤ
  unit_gold_reward : ℤ
  castle_income : ℤ
  castle_dmg : ℤ
  castle_hp : ℤ
  castle_regen : ℤ
  castle_income_lvl : ℤ
  castle_dmg_lvl : ℤ
  castle_regen_lvl : ℤ
  castle_hp_lvl : ℤ
deriving DecidableEq

/-- `Castle()` with default arguments, as built by `Player.__init__`. -/
def init_castle : CastleSt :=
  { hp := (CASTLE_HP : ℚ)
    max_hp := (CASTLE_HP : ℚ)
    dmg := 0
    regen := 0
    income := 0 }

/-- `Player.__init__` (economy fields). -/
def init_player : PState :=
  { gold := GOLD
    income := 0
    spawns := 0
    castle := init_castle
    unit_hp := UNIT_HP
    unit_dmg := UNIT_DMG
    unit_speed := UNIT_SPD
    unit_attack_speed := UNIT_ATSPD
    unit_regen := UNIT_REGEN
    unit_hp_lvl := 0
    unit_dmg_lvl := 0
    unit_speed_lvl := 0
    unit_attack_speed_lvl := 0
    unit_regen_lvl := 0
    unit_price := UNIT_PRICE
    unit_gold_reward := REWARD_FOR_KILLING
    castle_income := 0
    castle_dmg := 0
    castle_hp := CASTLE_HP
    castle_regen := 0
    castle_income_lvl := 0
    castle_dmg_lvl := 0
    castle_regen_lvl := 0
    castle_hp_lvl := 0 }

/-- `Player.build_spawn`. `count` is either an integer (`some c`) or the
string `'max'` (`none`), in which case the affordable count is
`gold // SPAWN_COST` (Python floor division) and no affordability check is
made. On insufficient gold the action is rejected with no state change. -/
def build_spawn (s : PState) (count : Option ℤ) : PState :=
  match count with
  | none =>
      let c := Int.fdiv s.gold SPAWN_COST
      { s with spawns := s.spawns + c, gold := s.gold - SPAWN_COST * c }
  | some c =>
      if s.gold < SPAWN_COST * c then s
      else { s with spawns := s.spawns + c, gold := s.gold - SPAWN_COST * c }

/-- Attribute-specific part of `Player.upgrade_units_attr`: bump the level
and the effective value of the chosen attribute. -/
def apply_unit_upgrade (s : PState) (attr : UAttr) (c : ℤ) : PState :=
  match attr with
  | .hp => { s with unit_hp_lvl := s.unit_hp_lvl + c,
                    unit_hp := s.unit_hp + UNIT_UPGRADES .hp * c }
  | .dmg => { s with unit_dmg_lvl := s.unit_dmg_lvl + c,
                     unit_dmg := s.unit_dmg + UNIT_UPGRADES .dmg * c }
  | .speed => { s with unit_speed_lvl := s.unit_speed_lvl + c,
                       unit_speed := s.unit_speed + UNIT_UPGRADES .speed * c }
  | .attack_speed =>
      { s with unit_attack_speed_lvl := s.unit_attack_speed_lvl + c,
               unit_attack_speed := s.unit_attack_speed + UNIT_UPGRADES .attack_speed * c }
  | .regen => { s with unit_regen_lvl := s.unit_regen_lvl + c,
                       unit_regen := s.unit_regen + UNIT_UPGRADES .regen * c }

/-- `Player.upgrade_units_attr`: on success, bump level and value, pay
`price * count`, and raise both the unit price and the per-kill gold reward
by `count * UPGRADE_GOLD_REWARD`. `none` models `count='max'`. -/
def upgrade_units_attr (s : PState) (attr : UAttr) (count : Option ℤ) : PState :=
  match count with
  | none =>
      let c := Int.fdiv s.gold (UNIT_UPGRADE_PRICES attr)
      let s := apply_unit_upgrade s attr c
      { s with gold := s.gold - UNIT_UPGRADE_PRICES attr * c,
               unit_price := s.unit_price + c * UPGRADE_GOLD_REWARD,
               unit_gold_reward := s.unit_gold_reward + c * UPGRADE_GOLD_REWARD }
  | some c =>
      if s.gold < UNIT_UPGRADE_PRICES attr * c then s
      else
        let s := apply_unit_upgrade s attr c
        { s with gold := s.gold - UNIT_UPGRADE_PRICES attr * c,
                 unit_price := s.unit_price + c * UPGRADE_GOLD_REWARD,
                 unit_gold_reward := s.unit_gold_reward + c * UPGRADE_GOLD_REWARD }

/-- Attribute-specific part of `Player.upgrade_castle_attr`: bump the
player's mirror level/value fields and the castle object's own attribute
(`self.castle.__dict__[attr] += CASTLE_UPGRADES[attr] * count` — for
`attr='hp'` this adds to the castle's CURRENT health). -/
def apply_castle_upgrade (s : PState) (attr : CAttr) (c : ℤ) : PState :=
  match attr with
  | .income =>
      { s with castle_income_lvl := s.castle_income_lvl + c,
               castle_income := s.castle_income + CASTLE_UPGRADES .income * c,
               castle := { s.castle with income := s.castle.income + CASTLE_UPGRADES .income * c } }
  | .dmg =>
      { s with castle_dmg_lvl := s.castle_dmg_lvl + c,
               castle_dmg := s.castle_dmg + CASTLE_UPGRADES .dmg * c,
               castle := { s.castle with dmg := s.castle.dmg + CASTLE_UPGRADES .dmg * c } }
  | .regen =>
      { s with castle_regen_lvl := s.castle_regen_lvl + c,
               castle_regen := s.castle_regen + CASTLE_UPGRADES .regen * c,
               castle := { s.castle with regen := s.castle.regen + CASTLE_UPGRADES .regen * c } }
  | .hp =>
      { s with castle_hp_lvl := s.castle_hp_lvl + c,
               castle_hp := s.castle_hp + CASTLE_UPGRADES .hp * c,
               castle := { s.castle with hp := s.castle.hp + ((CASTLE_UPGRADES .hp * c : ℤ) : ℚ) } }

/-- `Player.upgrade_castle_attr`: on success, bump level/value and castle
attribute, pay `price * count`; additionally `income` upgrades raise the
player's income and `hp` upgrades raise the castle's max health. `none`
models `count='max'`. -/
def upgrade_castle_attr (s : PState) (attr : CAttr) (count : Option ℤ) : PState :=
  match count with
  | none =>
      let c := Int.fdiv s.gold (CASTLE_UPGRADE_PRICES attr)
      upgrade_castle_go s attr c
  | some c =>
      if s.gold < CASTLE_UPGRADE_PRICES attr * c then s
      else upgrade_castle_go s attr c
where
  upgrade_castle_go (s : PState) (attr : CAttr) (c : ℤ) : PState :=
    let s' := apply_castle_upgrade s attr c
    let s' := { s' with gold := s'.gold - CASTLE_UPGRADE_PRICES attr * c }
    let s' := if attr = .income
              then { s' with income := s'.income + CASTLE_UPGRADES .income * c }
              else s'
    if attr = .hp
    then { s' with castle := { s'.castle with
                               max_hp := s'.castle.max_hp + ((CASTLE_UPGRADES .hp * c : ℤ) : ℚ) } }
    else s'

/-- The enemy stats consulted by `AIPlayer.choose_strategy` via
`self.enemy.get_player_stats()` (only the four unit upgrade levels are
read). -/
structure EnemyStats where
  unit_hp_lvl : ℤ
  unit_dmg_lvl : ℤ
  unit_as_lvl : ℤ
  unit_regen_lvl : ℤ
deriving DecidableEq

/-- `AIPlayer.choose_strategy`: pick a percentage table through a cascade of
overriding rules. Tables are written in Python dict insertion order. The
float thresholds `CASTLE_HP * 0.9` and `CASTLE_HP * 0.4` are modelled as
the exact rationals `10000 * (9/10)` and `10000 * (2/5)`. -/
def choose_strategy (s : PState) (enemy : EnemyStats) (turns_to_spawn : ℤ) :
    List (String × ℤ) :=
  let percentage : List (String × ℤ) :=
    [("spawn", 25), ("income", 45), ("unit_hp", 10), ("unit_dmg", 10),
     ("unit_attack_speed", 10)]
  let percentage :=
    if s.spawns = 0 then [("spawn", 100)]
    else if s.income < 500 then
      [("income", 70), ("spawn", 20), ("unit_hp", 5), ("unit_dmg", 3),
       ("unit_attack_speed", 1), ("unit_regen", 1)]
    else if s.income < 5000 then
      [("income", 90), ("spawn", 5), ("unit_hp", 2), ("unit_dmg", 1),
       ("unit_attack_speed", 1), ("unit_regen", 1)]
    else if s.income < 10000 then
      [("income", 60), ("spawn", 10), ("unit_hp", 10), ("unit_dmg", 10),
       ("unit_attack_speed", 9), ("unit_regen", 1)]
    else if s.unit_hp_lvl < 4 then
      [("spawn", 30), ("income", 35), ("unit_hp", 15), ("unit_dmg", 10),
       ("unit_attack_speed", 10)]
    else if s.spawns > 2 then
      [("spawn", 10), ("income", 45), ("unit_hp", 15), ("unit_dmg", 15),
       ("unit_attack_speed", 10), ("unit_regen", 5)]
    else percentage
  let enemy_unit_lvl :=
    enemy.unit_hp_lvl + enemy.unit_dmg_lvl + enemy.unit_as_lvl + enemy.unit_regen_lvl
  let percentage :=
    if enemy_unit_lvl > 200 then
      [("spawn", 10), ("income", 50), ("unit_hp", 10), ("unit_dmg", 10),
       ("unit_attack_speed", 10), ("unit_regen", 10)]
    else percentage
  let percentage :=
    if enemy_unit_lvl > 500 then
      [("spawn", 10), ("income", 45), ("unit_hp", 10), ("unit_dmg", 10),
       ("unit_attack_speed", 10), ("unit_regen", 10), ("castle_hp", 5)]
    else percentage
  let percentage :=
    if enemy_unit_lvl > 1000 then
      [("spawn", 20), ("income", 40), ("unit_hp", 10), ("unit_dmg", 10),
       ("unit_attack_speed", 10), ("castle_hp", 10)]
    else percentage
  let percentage :=
    if enemy_unit_lvl > 2000 then
      [("spawn", 20), ("income", 30), ("unit_hp", 10), ("unit_dmg", 10),
       ("unit_attack_speed", 10), ("castle_dmg", 5), ("castle_hp", 15)]
    else percentage
  let percentage :=
    if turns_to_spawn > 0 then [("income", 100)] else percentage
  let percentage :=
    if s.castle.hp < (CASTLE_HP : ℚ) then
      [("spawn", 10), ("income", 10), ("unit_hp", 10), ("unit_dmg", 10),
       ("unit_attack_speed", 10), ("castle_dmg", 40), ("castle_regen", 10)]
    else percentage
  let percentage :=
    if s.castle.hp < (CASTLE_HP : ℚ) * (9/10) then
      [("spawn", 1), ("income", 1), ("unit_hp", 1), ("unit_dmg", 1),
       ("unit_attack_speed", 1), ("unit_regen", 1), ("castle_dmg", 70),
       ("castle_regen", 19), ("castle_hp", 5)]
    else percentage
  let percentage :=
    if s.castle.hp < (CASTLE_HP : ℚ) * (2/5) then
      [("spawn", 10), ("income", 5), ("unit_hp", 5), ("unit_dmg", 5),
       ("unit_attack_speed", 5), ("unit_regen", 5), ("castle_dmg", 25),
       ("castle_regen", 20), ("castle_hp", 20)]
    else percentage
  percentage

/-- The price list assembled at the top of `AIPlayer.computer_action`:
`[SPAWN_COST] + UNIT_UPGRADE_PRICES.values() + CASTLE_UPGRADE_PRICES.values()`
(dict values in insertion order). -/
def prices_list : List ℤ :=
  [SPAWN_COST] ++
    ([UAttr.hp, UAttr.dmg, UAttr.speed, UAttr.attack_speed, UAttr.regen].map
      UNIT_UPGRADE_PRICES) ++
    ([CAttr.income, CAttr.dmg, CAttr.regen, CAttr.hp].map CASTLE_UPGRADE_PRICES)

/-- Python's `min(prices)`; the list is literally non-empty so the
`getD 0` default is never consulted. -/
def cheapest_price : ℤ := (prices_list.min?).getD 0

/-- Dispatch on the chosen action name at the bottom of
`AIPlayer.computer_action` (every branch performs its action with
`count=1`; an unrecognised or absent choice does nothing). -/
def dispatch_action (s : PState) (choice : Option String) : PState :=
  match choice with
  | some "spawn" => build_spawn s (some 1)
  | some "unit_hp" => upgrade_units_attr s .hp (some 1)
  | some "unit_dmg" => upgrade_units_attr s .dmg (some 1)
  | some "unit_attack_speed" => upgrade_units_attr s .attack_speed (some 1)
  | some "unit_regen" => upgrade_units_attr s .regen (some 1)
  | some "income" => upgrade_castle_attr s .income (some 1)
  | some "castle_dmg" => upgrade_castle_attr s .dmg (some 1)
  | some "castle_regen" => upgrade_castle_attr s .regen (some 1)
  | some "castle_hp" => upgrade_castle_attr s .hp (some 1)
  | _ => s

/-- `AIPlayer.computer_action`. Returns `some (False, s)` unchanged when
gold is below the cheapest listed price; otherwise builds the filtered
strategy, consumes one random draw (the oracle value `r` stands for
`random.randint(1, max_rand)`), performs the chosen action and returns
`some (True, s')`. `none` models the `sys.exit` inside
`convert_percentage`. -/
def computer_action (s : PState) (enemy : EnemyStats) (turns_to_spawn : ℤ)
    (r : ℤ) : Option (Bool × PState) :=
  if s.gold < cheapest_price then some (false, s)
  else
    let percentage := choose_strategy s enemy turns_to_spawn
    match build_computer_strategy percentage s.gold with
    | (none, _) => none
    | (some strategy, _) =>
        let choice := random_choice strategy r
        some (true, dispatch_action s choice)

/-- `AIPlayer.is_enough_gold`:
`self.gold + (self.income * turns_to_spawn + 1) > self.spawns * self.unit_price`. -/
def is_enough_gold (s : PState) (turns_to_spawn : ℤ) : Bool :=
  s.spawns * s.unit_price < s.gold + (s.income * turns_to_spawn + 1)

/-- `AIPlayer.make_turn`: repeat `computer_action` while `is_enough_gold`
holds, stopping early when `computer_action` signals failure. `fuel` bounds
the number of loop iterations examined: `some s'` means the Python loop
genuinely ended with state `s'` within `fuel` iterations, `none` means the
fuel ran out (or a `sys.exit` was reached). `rnd` is the stream of random
draws, one per iteration. -/
def make_turn (fuel : ℕ) (s : PState) (enemy : EnemyStats)
    (turns_to_spawn : ℤ) (rnd : ℕ → ℤ) : Option PState :=
  match fuel with
  | 0 => none
  | fuel + 1 =>
      if is_enough_gold s turns_to_spawn then
        match computer_action s enemy turns_to_spawn (rnd 0) with
        | none => none
        | some (success, s') =>
            if success then make_turn fuel s' enemy turns_to_spawn (fun i => rnd (i + 1))
            else some s'
      else some s

/-- Modelled from the spec: claim C4's stopping condition "it determines it
already has enough projected gold — current gold plus
remaining-turns-until-spawn times income — to afford spawning its pending
slots (spawns times unit price)". -/
def spec_has_enough_projected_gold (s : PState) (turns_to_spawn : ℤ) : Bool :=
  s.spawns * s.unit_price ≤ s.gold + s.income * turns_to_spawn

/-- A unit's personal target (`Unit.target`): another unit (identified by
its id, with its health at reference time) or the enemy castle. -/
inductive UTgt where
  | unit (id : ℕ) (hp : ℚ)
  | castle
deriving DecidableEq

/-- A unit as a member of an army: object identity `id`, health, and the
personal target reference. -/
structure GUnit where
  id : ℕ
  hp : ℚ
  tgt : Option UTgt
deriving DecidableEq

/-- An enemy army as seen by targeting code: its land position and its
member units. -/
structure EArmy where
  position : ℤ
  units : List GUnit
deriving DecidableEq

/-- An army's target (`Army.target`): an enemy army or the enemy castle. -/
inductive ATgt where
  | army (a : EArmy)
  | castle
deriving DecidableEq

/-- The army state relevant to targeting and merging. -/
structure BArmy where
  position : ℤ
  movement : ℤ
  units : List GUnit
  target : Option ATgt
deriving DecidableEq

/-- `get_enemy_army_in_position`: first enemy army found at the given
position, `None` otherwise. -/
def get_enemy_army_in_position (position : ℤ) (enemy_armies : List EArmy) :
    Option EArmy :=
  enemy_armies.find? (fun army => army.position = position)

/-- `random.choice(units)` with the drawn index supplied by an oracle value
`r`: returns the element at `r mod length`, or `none` for an empty list
(where Python would raise `IndexError`). -/
def unit_choice (units : List GUnit) (r : ℕ) : Option GUnit :=
  units[r % units.length]?

/-- Builds the `UTgt` reference recorded by `unit.set_target(chosen)`. -/
def toUTgt (v : GUnit) : UTgt := .unit v.id v.hp

/-- The `for unit in self.units: unit.set_target(random.choice(pool))`
pattern: every unit at list offset `i` (counted from `start`) receives an
independently drawn member of `pool` as its personal target. -/
def retarget_all (pick : ℕ → ℕ) (pool : List GUnit) :
    ℕ → List GUnit → List GUnit
  | _, [] => []
  | i, u :: us =>
      { u with tgt := (unit_choice pool (pick i)).map toUTgt } ::
        retarget_all pick pool (i + 1) us

/-- `Army.get_target`: try, in order, an enemy army in the current cell
(no unit retargeting), an enemy army in the next cell (each unit draws a
random member of it), and the enemy castle when within one cell (each unit
targets the castle); otherwise no target and `False`. `castle_position` is
`self.enemy_castle.position` and `pick` feeds the random draws. -/
def BArmy.get_target (a : BArmy) (enemy_armies : List EArmy)
    (castle_position : ℤ) (pick : ℕ → ℕ) : BArmy × Bool :=
  match get_enemy_army_in_position a.position enemy_armies with
  | some e => ({ a with target := some (.army e) }, true)
  | none =>
      match get_enemy_army_in_position (a.position + a.movement) enemy_armies with
      | some e =>
          ({ a with target := some (.army e),
                    units := retarget_all pick e.units 0 a.units }, true)
      | none =>
          if |a.position - castle_position| ≤ 1 then
            ({ a with target := some .castle,
                      units := a.units.map (fun u => { u with tgt := some .castle }) }, true)
          else
            ({ a with target := none }, false)

/-- `Army.copy_target`: retarget this army's own units according to the
OTHER army's target (passed in as `other_army_target`); the army-level
target field is not touched. -/
def BArmy.copy_target (a : BArmy) (other_army_target : Option ATgt)
    (pick : ℕ → ℕ) : BArmy :=
  match other_army_target with
  | some (.army e) => { a with units := retarget_all pick e.units 0 a.units }
  | some .castle => { a with units := a.units.map (fun u => { u with tgt := some .castle }) }
  | none => a

/-- `Player.union_armies(army1, army2)` as called from
`check_armies_collision(army1)`: the mover `army1` copies the SURVIVOR's
(`army2`'s) target onto its own units, its units are appended to `army2`,
and `army1` is dropped from the player's army list. The function returns
the surviving merged army. -/
def union_armies (army1 army2 : BArmy) (pick : ℕ → ℕ) : BArmy :=
  let army1 := army1.copy_target army2.target pick
  { army2 with units := army2.units ++ army1.units }

/-- The retarget condition in `Army.refresh_units_target`:
`not unit.has_target() and not isinstance(unit.target, Castle)`
(`has_target` is `target is not None and target.hp`). -/
def needs_retarget (u : GUnit) : Bool :=
  match u.tgt with
  | none => true
  | some (.unit _ hp) => hp = 0
  | some .castle => false

/-- Body of the loop in `Army.refresh_units_target` for an army-targeting
army: units whose personal target is dead (and not the castle) draw a fresh
member of the target army. -/
def refresh_go (pick : ℕ → ℕ) (pool : List GUnit) :
    ℕ → List GUnit → List GUnit
  | _, [] => []
  | i, u :: us =>
      (if needs_retarget u then { u with tgt := (unit_choice pool (pick i)).map toUTgt }
       else u) :: refresh_go pick pool (i + 1) us

/-- `Army.refresh_units_target`: nothing happens without an army-level
target; with a target, every unit needing a new target draws from
`self.target.units`. When the target is the castle (which has no `units`
attribute) or the pool is empty, a needy unit would make Python raise;
this is modelled as `none`. -/
def BArmy.refresh_units_target (a : BArmy) (pick : ℕ → ℕ) : Option BArmy :=
  match a.target with
  | none => some a
  | some .castle =>
      if a.units.any needs_retarget then none else some a
  | some (.army e) =>
      if e.units.isEmpty ∧ a.units.any needs_retarget then none
      else some { a with units := refresh_go pick e.units 0 a.units }

/-- Unfolding lemma: the attack loop stops as soon as the accumulator is
below `ATTACK_RATE`. -/
theorem attack_loop_stop (rate dmg : ℚ) (t : Cmb) (h : rate < ATTACK_RATE) :
    attack_loop rate dmg t = (rate, t) := by
  rw [attack_loop]
  exact dif_neg (not_le.mpr h)

/-- Unfolding lemma: with accumulator at least `ATTACK_RATE`, one hit is
applied and the accumulator drops by `ATTACK_RATE`. -/
theorem attack_loop_hit (rate dmg : ℚ) (t : Cmb) (h : ATTACK_RATE ≤ rate) :
    attack_loop rate dmg t = attack_loop (rate - ATTACK_RATE) dmg (t.get_damage dmg) := by
  rw [attack_loop]
  exact dif_pos h

/-- Fixture for C1: a default-stats unit whose accumulator sits exactly at
the threshold, and a live unit target with 5 health. -/
def c1_unit : UnitC :=
  { hp := 5, max_hp := 5, dmg := 1, attack_speed := 1, attack_rate := 5, regen := 0 }

/-- Fixture for C1: the target of `c1_unit`. -/
def c1_target : Cmb := { kind := .unit, hp := 5, max_hp := 5, regen := 0 }

/-- C1 counterexample: for a unit with `attack_speed = 1`, accumulator
exactly 5 and damage 1, one `attack()` call against a live target does
reduce the target's health by exactly 1, but leaves the accumulator at 1 —
not at 0 as the claim states — because the `else` of the Python
`while ... else` runs even after a hit and adds `attack_speed`. -/
theorem C1_counterexample :
    (c1_unit.attack c1_target).2.hp = 4 ∧
    (c1_unit.attack c1_target).1.attack_rate = 1 ∧
    ¬ (c1_unit.attack c1_target).1.attack_rate = 0 := by
  have h1 : attack_loop 5 1 c1_target = attack_loop 0 1 (c1_target.get_damage 1) := by
    have h := attack_loop_hit 5 1 c1_target (by norm_num [ATTACK_RATE])
    simpa [ATTACK_RATE] using h
  have h2 : attack_loop 0 1 (c1_target.get_damage 1) = (0, c1_target.get_damage 1) :=
    attack_loop_stop _ _ _ (by norm_num [ATTACK_RATE])
  refine ⟨?_, ?_, ?_⟩
  · show (attack_loop c1_unit.attack_rate c1_unit.dmg c1_target).2.hp = 4
    rw [show c1_unit.attack_rate = 5 from rfl, show c1_unit.dmg = 1 from rfl, h1, h2]
    norm_num [Cmb.get_damage, c1_target]
  · show (attack_loop c1_unit.attack_rate c1_unit.dmg c1_target).1 + c1_unit.attack_speed = 1
    rw [show c1_unit.attack_rate = 5 from rfl, show c1_unit.dmg = 1 from rfl, h1, h2]
    norm_num [c1_unit]
  · show ¬ (attack_loop c1_unit.attack_rate c1_unit.dmg c1_target).1 + c1_unit.attack_speed = 0
    rw [show c1_unit.attack_rate = 5 from rfl, show c1_unit.dmg = 1 from rfl, h1, h2]
    norm_num [c1_unit]

/-- C1 (amended): while the accumulated attack rate is at least the
threshold `ATTACK_RATE`, `Unit.attack` applies its damage to its target and
subtracts the threshold; afterwards the accumulator always grows by
`attack_speed`, in hitting calls as well (Python's `while ... else` clause
runs because the loop has no `break`). For a unit whose accumulator `r`
satisfies `5 ≤ r < 10`, one call applies `get_damage(dmg)` to the target
exactly once and leaves the accumulator at `r - 5 + attack_speed`; with
`attack_speed = 1`, damage 1 and accumulator exactly 5 the target loses
exactly 1 health and the accumulator ends at 1. -/
theorem C1_attack_amended (u : UnitC) (t : Cmb)
    (h1 : ATTACK_RATE ≤ u.attack_rate) (h2 : u.attack_rate < 2 * ATTACK_RATE) :
    (u.attack t).2 = t.get_damage u.dmg ∧
    (u.attack t).1.attack_rate = u.attack_rate - ATTACK_RATE + u.attack_speed := by
  have hlt : u.attack_rate - ATTACK_RATE < ATTACK_RATE := by linarith
  have ha := attack_loop_hit u.attack_rate u.dmg t h1
  have hb := attack_loop_stop (u.attack_rate - ATTACK_RATE) u.dmg (t.get_damage u.dmg) hlt
  constructor
  · show (attack_loop u.attack_rate u.dmg t).2 = t.get_damage u.dmg
    rw [ha, hb]
  · show (attack_loop u.attack_rate u.dmg t).1 + u.attack_speed
        = u.attack_rate - ATTACK_RATE + u.attack_speed
    rw [ha, hb]

/-- Witness for C1 (amended) at the concrete fixture. -/
theorem C1_attack_amended_witness :
    (c1_unit.attack c1_target).2 = c1_target.get_damage c1_unit.dmg ∧
    (c1_unit.attack c1_target).1.attack_rate
      = c1_unit.attack_rate - ATTACK_RATE + c1_unit.attack_speed :=
  C1_attack_amended c1_unit c1_target
    (by norm_num [c1_unit, ATTACK_RATE]) (by norm_num [c1_unit, ATTACK_RATE])

/-- Unfolding equation for the unit override of `get_damage`. -/
theorem get_damage_unit_eq (hp mx rg d : ℚ) :
    Cmb.get_damage ⟨.unit, hp, mx, rg⟩ d =
      ⟨.unit, if hp - d < 0 then 0 else hp - d, mx, rg⟩ := rfl

/-- Unfolding equation for the castle override of `get_damage`. -/
theorem get_damage_castle_eq (hp mx rg d : ℚ) :
    Cmb.get_damage ⟨.castle, hp, mx, rg⟩ d =
      ⟨.castle,
       if hp - (if d * CASTLE_RECEIVE_DAMAGE = 0 then 1 else d * CASTLE_RECEIVE_DAMAGE) < 0
       then 0
       else hp - (if d * CASTLE_RECEIVE_DAMAGE = 0 then 1 else d * CASTLE_RECEIVE_DAMAGE),
       mx, rg⟩ := rfl

/-- The applied (post-mitigation, minimum-1) castle damage is non-negative
whenever the raw damage is. -/
theorem castle_applied_damage_nonneg (d : ℚ) (hd : 0 ≤ d) :
    0 ≤ (if d * CASTLE_RECEIVE_DAMAGE = 0 then 1 else d * CASTLE_RECEIVE_DAMAGE) := by
  split_ifs
  · norm_num
  · exact mul_nonneg hd (by norm_num [CASTLE_RECEIVE_DAMAGE])

/-- `get_damage` never touches `kind`, `max_hp` or `regen`. -/
theorem get_damage_frame (c : Cmb) (d : ℚ) :
    (c.get_damage d).kind = c.kind ∧ (c.get_damage d).max_hp = c.max_hp ∧
      (c.get_damage d).regen = c.regen := by
  rcases c with ⟨k, hp, mx, rg⟩
  cases k
  · rw [get_damage_unit_eq]
    exact ⟨rfl, rfl, rfl⟩
  · rw [get_damage_castle_eq]
    exact ⟨rfl, rfl, rfl⟩

/-- `regenerate` never touches `kind`, `max_hp` or `regen`. -/
theorem regenerate_frame (c : Cmb) :
    c.regenerate.kind = c.kind ∧ c.regenerate.max_hp = c.max_hp ∧
      c.regenerate.regen = c.regen := by
  rcases c with ⟨k, hp, mx, rg⟩
  simp only [Cmb.regenerate]
  split <;> simp

/-- Health after `get_damage` with non-negative damage stays within
`[0, hp]`. -/
theorem get_damage_hp_bounds (c : Cmb) (d : ℚ) (h0 : 0 ≤ c.hp) (hd : 0 ≤ d) :
    0 ≤ (c.get_damage d).hp ∧ (c.get_damage d).hp ≤ c.hp := by
  rcases c with ⟨k, hp, mx, rg⟩
  simp only at h0
  cases k
  · rw [get_damage_unit_eq]
    simp only
    constructor
    · split_ifs <;> linarith
    · split_ifs <;> linarith
  · rw [get_damage_castle_eq]
    simp only
    have hm0 := castle_applied_damage_nonneg d hd
    constructor
    · split_ifs at hm0 ⊢ <;> linarith
    · split_ifs at hm0 ⊢ <;> linarith

/-- Health after `regenerate` with non-negative regen stays within
`[0, max_hp]` provided it started there. -/
theorem regenerate_hp_bounds (c : Cmb) (h0 : 0 ≤ c.hp) (h1 : c.hp ≤ c.max_hp)
    (hr : 0 ≤ c.regen) : 0 ≤ c.regenerate.hp ∧ c.regenerate.hp ≤ c.max_hp := by
  rcases c with ⟨k, hp, mx, rg⟩
  simp only at h0 h1 hr
  simp only [Cmb.regenerate]
  split
  · simp only
    constructor
    · split_ifs <;> simp_all <;> linarith
    · split_ifs <;> simp_all <;> linarith
  · exact ⟨h0, h1⟩

/-- C2: for every combatant (unit or castle) starting with
`0 ≤ hp ≤ max_hp` and `regen ≥ 0`, any sequence of `get_damage` calls with
non-negative damage interleaved with `regenerate` calls keeps health within
`[0, max_hp]`: damage is clamped at zero and regeneration at `max_hp`. -/
theorem C2_health_invariant (c : Cmb) (ops : List DRop)
    (h0 : 0 ≤ c.hp) (h1 : c.hp ≤ c.max_hp) (hr : 0 ≤ c.regen)
    (hops : ∀ op ∈ ops, op.nonneg) :
    0 ≤ (ops.foldl Cmb.apply_op c).hp ∧
      (ops.foldl Cmb.apply_op c).hp ≤ (ops.foldl Cmb.apply_op c).max_hp := by
  induction ops generalizing c with
  | nil => exact ⟨h0, h1⟩
  | cons op rest ih =>
      have hop : op.nonneg := hops op (List.mem_cons_self op rest)
      have hstep : 0 ≤ (c.apply_op op).hp ∧ (c.apply_op op).hp ≤ (c.apply_op op).max_hp := by
        cases op with
        | damage d =>
            have hd : 0 ≤ d := hop
            have hb := get_damage_hp_bounds c d h0 hd
            have hf := get_damage_frame c d
            exact ⟨hb.1, by rw [show (c.apply_op (DRop.damage d)) = c.get_damage d from rfl,
                               hf.2.1]; linarith [hb.2]⟩
        | regen =>
            have hb := regenerate_hp_bounds c h0 h1 hr
            have hf := regenerate_frame c
            exact ⟨hb.1, by rw [show (c.apply_op DRop.regen) = c.regenerate from rfl,
                               hf.2.1]; exact hb.2⟩
      have hregen : 0 ≤ (c.apply_op op).regen := by
        cases op with
        | damage d => rw [show (c.apply_op (DRop.damage d)) = c.get_damage d from rfl,
                          (get_damage_frame c d).2.2]; exact hr
        | regen => rw [show (c.apply_op DRop.regen) = c.regenerate from rfl,
                       (regenerate_frame c).2.2]; exact hr
      exact ih (c.apply_op op) hstep.1 hstep.2 hregen
        (fun o ho => hops o (List.mem_cons_of_mem op ho))

/-- Fixture for the C2 witness: a castle-kind combatant at mid health. -/
def c2_comb : Cmb := { kind := .castle, hp := 10, max_hp := 20, regen := 5 }

/-- Fixture for the C2 witness: a damage/regen call sequence. -/
def c2_ops : List DRop := [DRop.damage 30, DRop.regen, DRop.damage 100, DRop.regen]

/-- Witness for C2 at a concrete combatant and call sequence. -/
theorem C2_health_invariant_witness :
    0 ≤ (c2_ops.foldl Cmb.apply_op c2_comb).hp ∧
      (c2_ops.foldl Cmb.apply_op c2_comb).hp ≤ (c2_ops.foldl Cmb.apply_op c2_comb).max_hp :=
  C2_health_invariant c2_comb c2_ops (by norm_num [c2_comb]) (by norm_num [c2_comb])
    (by norm_num [c2_comb]) (by decide)

/-- C7: a castle takes only the fixed `CASTLE_RECEIVE_DAMAGE` (10%)
fraction of incoming damage, with a minimum of 1 point whenever the
mitigated amount equals zero: mitigated-zero damage removes exactly 1
health point (given at least 1 point of health), raw damage 100 removes
exactly 10 points (given at least 10), and any positive raw damage `d`
removes `d * CASTLE_RECEIVE_DAMAGE`, clamped at zero health. -/
theorem C7_castle_mitigation (c : Cmb) (hk : c.kind = CKind.castle) :
    (∀ d : ℚ, d * CASTLE_RECEIVE_DAMAGE = 0 → 1 ≤ c.hp → (c.get_damage d).hp = c.hp - 1) ∧
    (10 ≤ c.hp → (c.get_damage 100).hp = c.hp - 10) ∧
    (∀ d : ℚ, 0 < d → (c.get_damage d).hp = max 0 (c.hp - d * CASTLE_RECEIVE_DAMAGE)) := by
  rcases c with ⟨k, hp, mx, rg⟩
  simp only at hk
  subst hk
  refine ⟨?_, ?_, ?_⟩
  · intro d hd hhp
    simp only at hhp
    rw [get_damage_castle_eq, if_pos hd]
    simp only
    rw [if_neg (by linarith)]
  · intro hhp
    simp only at hhp
    have h100 : (100 : ℚ) * CASTLE_RECEIVE_DAMAGE = 10 := by norm_num [CASTLE_RECEIVE_DAMAGE]
    rw [get_damage_castle_eq, h100]
    simp only
    have hc1 : ¬((10 : ℚ) = 0) := by norm_num
    rw [if_neg hc1]
    have hc2 : ¬(hp - 10 < 0) := by linarith
    rw [if_neg hc2]
  · intro d hd
    have hne : d * CASTLE_RECEIVE_DAMAGE ≠ 0 := by
      have hrd : (0 : ℚ) < CASTLE_RECEIVE_DAMAGE := by norm_num [CASTLE_RECEIVE_DAMAGE]
      positivity
    rw [get_damage_castle_eq, if_neg hne]
    simp only
    split_ifs with h
    · rw [max_eq_left (by linarith)]
    · rw [max_eq_right (by linarith)]

/-- Fixture for C7: a full-health castle. -/
def c7_castle : Cmb := { kind := .castle, hp := 10000, max_hp := 10000, regen := 0 }

/-- Witness for C7: raw damage 0 removes exactly 1 point and raw damage 100
removes exactly 10 points from a 10000-health castle. -/
theorem C7_castle_mitigation_witness :
    (c7_castle.get_damage 0).hp = c7_castle.hp - 1 ∧
      (c7_castle.get_damage 100).hp = c7_castle.hp - 10 :=
  ⟨(C7_castle_mitigation c7_castle rfl).1 0 (by norm_num) (by norm_num [c7_castle]),
   (C7_castle_mitigation c7_castle rfl).2.1 (by norm_num [c7_castle])⟩

/-- The claim's example percentage table, written in Python dict insertion
order: `{'spawn':35, 'income':30, 'unit_hp':10, 'unit_dmg':10,
'unit_attack_speed':10, 'unit_regen':5}`. -/
def percentage_example : List (String × ℤ) :=
  [("spawn", 35), ("income", 30), ("unit_hp", 10), ("unit_dmg", 10),
   ("unit_attack_speed", 10), ("unit_regen", 5)]

/-- C3 counterexample: `convert_percentage` applied to the example table
does NOT return the mapping the claim (and the code's own docstring)
states. The three 10% actions tie, and Python's stable sort keeps them in
dict insertion order (`unit_hp`, `unit_dmg`, `unit_attack_speed`), so
threshold 15 maps to `unit_hp` and 35 to `unit_attack_speed`, not the
other way round. -/
theorem C3_counterexample :
    convert_percentage percentage_example ≠
      some [(5, "unit_regen"), (15, "unit_attack_speed"), (25, "unit_dmg"),
            (35, "unit_hp"), (65, "income"), (100, "spawn")] := by decide

/-- C3 (amended): `convert_percentage` sorts actions by ascending desired
percentage with Python's stable sort (ties keep dict insertion order),
accumulates a running total and maps each running total to its action;
on the example table it returns exactly
`{5: unit_regen, 15: unit_hp, 25: unit_dmg, 35: unit_attack_speed,
65: income, 100: spawn}`. -/
theorem C3_convert_percentage_amended :
    convert_percentage percentage_example =
      some [(5, "unit_regen"), (15, "unit_hp"), (25, "unit_dmg"),
            (35, "unit_attack_speed"), (65, "income"), (100, "spawn")] := by decide

/-- Fixture for C4's counterexample: an AI state holding 150 gold (enough
for the cheapest 100-gold action) with 1000 pending spawn slots at unit
price 5, so that the projected gold (150 + 0·income + 1) falls far short of
the 5000 gold spawning requires. -/
def c4_state : PState := { init_player with gold := 150, spawns := 1000 }

/-- Fixture: a neutral enemy-stats record. -/
def e0 : EnemyStats := { unit_hp_lvl := 0, unit_dmg_lvl := 0, unit_as_lvl := 0, unit_regen_lvl := 0 }

/-- Fixture: a constant random-draw stream. -/
def rnd0 : ℕ → ℤ := fun _ => 1

/-- C4 counterexample: `make_turn` returns immediately with the state
unchanged (loop guard `is_enough_gold` fails) even though gold suffices for
the cheapest action AND the AI does NOT yet have enough projected gold to
afford spawning its pending slots — the opposite of the claim, which says
the loop only stops on insufficient gold for the cheapest action or on
having enough projected gold. -/
theorem C4_counterexample :
    make_turn 10 c4_state e0 0 rnd0 = some c4_state ∧
    cheapest_price ≤ c4_state.gold ∧
    spec_has_enough_projected_gold c4_state 0 = false ∧
    is_enough_gold c4_state 0 = false := by decide

/-- C4 (amended): `make_turn` repeats single-action decisions
(`computer_action`) and stops as soon as either the loop guard
`is_enough_gold` fails — i.e. the projected gold, current gold plus
remaining-turns-until-spawn times income plus one, no longer EXCEEDS the
cost of spawning the pending slots (spawns times unit price) — or current
gold is insufficient for the cheapest action (the minimum over spawn cost
and all unit/castle upgrade prices), whichever comes first. In both stop
cases the state is returned unchanged by the stopping step, and whenever
gold does cover the cheapest action, `computer_action` never ends the
loop. -/
theorem C4_make_turn_amended (fuel : ℕ) (s : PState) (enemy : EnemyStats)
    (turns_to_spawn : ℤ) (rnd : ℕ → ℤ) :
    (is_enough_gold s turns_to_spawn = false →
       make_turn (fuel + 1) s enemy turns_to_spawn rnd = some s) ∧
    (is_enough_gold s turns_to_spawn = true → s.gold < cheapest_price →
       make_turn (fuel + 1) s enemy turns_to_spawn rnd = some s) ∧
    (cheapest_price ≤ s.gold → ∀ (r : ℤ) (p : Bool × PState),
       computer_action s enemy turns_to_spawn r = some p → p.1 = true) := by
  refine ⟨?_, ?_, ?_⟩
  · intro h
    simp [make_turn, h]
  · intro h hg
    simp [make_turn, h, computer_action, hg]
  · intro hg r p hp
    have hng : ¬ s.gold < cheapest_price := not_lt.mpr hg
    rw [computer_action, if_neg hng] at hp
    dsimp only at hp
    rcases hcs : build_computer_strategy (choose_strategy s enemy turns_to_spawn) s.gold
      with ⟨os, total⟩
    rw [hcs] at hp
    cases os with
    | none => simp at hp
    | some strategy =>
        simp only [Option.some.injEq] at hp
        rw [← hp]

/-- Fixture for the C4 witness: 50 gold, below the cheapest price, with no
pending spawns so the loop guard holds. -/
def c4_poor_state : PState := { init_player with gold := 50 }

/-- Witness for C4 (amended) at the concrete fixture: the guard holds and
gold is below the cheapest price, so the loop stops with the state
unchanged. -/
theorem C4_make_turn_amended_witness :
    make_turn (5 + 1) c4_poor_state e0 0 rnd0 = some c4_poor_state :=
  (C4_make_turn_amended 5 c4_poor_state e0 0 rnd0).2.1 (by decide) (by decide)

/-- C8 counterexample: on the freshly initialised player (1000 gold), one
castle `hp` upgrade raises the castle's CURRENT health from 10000 to 11000
(the code also adds the per-level delta to `castle.hp`), contradicting the
claim that existing current health is left unchanged. -/
theorem C8_counterexample :
    (upgrade_castle_attr init_player .hp (some 1)).castle.hp = 11000 ∧
    ¬ (upgrade_castle_attr init_player .hp (some 1)).castle.hp
        = init_player.castle.hp := by
  constructor
  · norm_num [upgrade_castle_attr, upgrade_castle_attr.upgrade_castle_go,
      apply_castle_upgrade, init_player, init_castle, CASTLE_UPGRADES,
      CASTLE_UPGRADE_PRICES, GOLD, CASTLE_HP]
    split <;> norm_num
  · norm_num [upgrade_castle_attr, upgrade_castle_attr.upgrade_castle_go,
      apply_castle_upgrade, init_player, init_castle, CASTLE_UPGRADES,
      CASTLE_UPGRADE_PRICES, GOLD, CASTLE_HP]
    split <;> norm_num

/-- Gold is untouched by the attribute-specific part of a unit upgrade. -/
theorem apply_unit_upgrade_gold (s : PState) (attr : UAttr) (c : ℤ) :
    (apply_unit_upgrade s attr c).gold = s.gold := by
  cases attr <;> rfl

/-- Gold is untouched by the attribute-specific part of a castle upgrade. -/
theorem apply_castle_upgrade_gold (s : PState) (attr : CAttr) (c : ℤ) :
    (apply_castle_upgrade s attr c).gold = s.gold := by
  cases attr <;> rfl

/-- Gold after the successful core of `upgrade_castle_attr` is the original
gold minus `price * count`. -/
theorem upgrade_castle_go_gold (s : PState) (attr : CAttr) (c : ℤ) :
    (upgrade_castle_attr.upgrade_castle_go s attr c).gold
      = s.gold - CASTLE_UPGRADE_PRICES attr * c := by
  cases attr <;>
    simp [upgrade_castle_attr.upgrade_castle_go, apply_castle_upgrade]

/-- C8 (amended): a successful `upgrade_castle_attr('hp', count)` increases
BOTH the castle's max health and its current health by the per-level delta
(1000) times `count`, and deducts `price * count` gold. -/
theorem C8_castle_hp_upgrade_amended (s : PState) (count : ℤ)
    (hc : 0 < count) (hg : CASTLE_UPGRADE_PRICES .hp * count ≤ s.gold) :
    (upgrade_castle_attr s .hp (some count)).castle.max_hp
        = s.castle.max_hp + 1000 * (count : ℚ) ∧
    (upgrade_castle_attr s .hp (some count)).castle.hp
        = s.castle.hp + 1000 * (count : ℚ) ∧
    (upgrade_castle_attr s .hp (some count)).gold
        = s.gold - CASTLE_UPGRADE_PRICES .hp * count := by
  have hng : ¬ s.gold < CASTLE_UPGRADE_PRICES .hp * count := not_lt.mpr hg
  rw [upgrade_castle_attr]
  rw [if_neg hng]
  refine ⟨?_, ?_, ?_⟩
  · simp [upgrade_castle_attr.upgrade_castle_go, apply_castle_upgrade, CASTLE_UPGRADES]
  · simp [upgrade_castle_attr.upgrade_castle_go, apply_castle_upgrade, CASTLE_UPGRADES]
  · exact upgrade_castle_go_gold s .hp count

/-- Witness for C8 (amended) at the freshly initialised player with one
upgrade. -/
theorem C8_castle_hp_upgrade_amended_witness :
    (upgrade_castle_attr init_player .hp (some 1)).castle.max_hp
        = init_player.castle.max_hp + 1000 * ((1 : ℤ) : ℚ) ∧
    (upgrade_castle_attr init_player .hp (some 1)).castle.hp
        = init_player.castle.hp + 1000 * ((1 : ℤ) : ℚ) ∧
    (upgrade_castle_attr init_player .hp (some 1)).gold
        = init_player.gold - CASTLE_UPGRADE_PRICES .hp * 1 :=
  C8_castle_hp_upgrade_amended init_player 1 (by decide) (by decide)

/-- C9: for every player state and positive integer count, `build_spawn`,
`upgrade_units_attr` and `upgrade_castle_attr` reject the action with NO
state change whatever when gold is below `price * count`, and otherwise
deduct exactly `price * count`, so gold never goes negative and every
purchase is atomic. -/
theorem C9_purchase_atomicity (s : PState) (count : ℤ) (ua : UAttr) (ca : CAttr)
    (hc : 0 < count) :
    (s.gold < SPAWN_COST * count → build_spawn s (some count) = s) ∧
    (SPAWN_COST * count ≤ s.gold →
       (build_spawn s (some count)).gold = s.gold - SPAWN_COST * count ∧
       0 ≤ (build_spawn s (some count)).gold) ∧
    (s.gold < UNIT_UPGRADE_PRICES ua * count → upgrade_units_attr s ua (some count) = s) ∧
    (UNIT_UPGRADE_PRICES ua * count ≤ s.gold →
       (upgrade_units_attr s ua (some count)).gold
           = s.gold - UNIT_UPGRADE_PRICES ua * count ∧
       0 ≤ (upgrade_units_attr s ua (some count)).gold) ∧
    (s.gold < CASTLE_UPGRADE_PRICES ca * count → upgrade_castle_attr s ca (some count) = s) ∧
    (CASTLE_UPGRADE_PRICES ca * count ≤ s.gold →
       (upgrade_castle_attr s ca (some count)).gold
           = s.gold - CASTLE_UPGRADE_PRICES ca * count ∧
       0 ≤ (upgrade_castle_attr s ca (some count)).gold) := by
  refine ⟨?_, ?_, ?_, ?_, ?_, ?_⟩
  · intro h
    rw [build_spawn, if_pos h]
  · intro h
    have hng : ¬ s.gold < SPAWN_COST * count := not_lt.mpr h
    rw [build_spawn, if_neg hng]
    exact ⟨rfl, by simp only; omega⟩
  · intro h
    rw [upgrade_units_attr, if_pos h]
  · intro h
    have hng : ¬ s.gold < UNIT_UPGRADE_PRICES ua * count := not_lt.mpr h
    rw [upgrade_units_attr, if_neg hng]
    refine ⟨?_, ?_⟩
    · simp only
      rw [apply_unit_upgrade_gold]
    · simp only
      rw [apply_unit_upgrade_gold]
      omega
  · intro h
    rw [upgrade_castle_attr, if_pos h]
  · intro h
    have hng : ¬ s.gold < CASTLE_UPGRADE_PRICES ca * count := not_lt.mpr h
    rw [upgrade_castle_attr, if_neg hng]
    refine ⟨?_, ?_⟩
    · exact upgrade_castle_go_gold s ca count
    · rw [upgrade_castle_go_gold s ca count]
      omega

/-- Witness for C9 at the freshly initialised player buying two spawns,
one unit damage upgrade pair and one castle regen upgrade pair. -/
theorem C9_purchase_atomicity_witness :
    (build_spawn init_player (some 2)).gold = init_player.gold - SPAWN_COST * 2 ∧
    0 ≤ (build_spawn init_player (some 2)).gold :=
  (C9_purchase_atomicity init_player 2 .dmg .regen (by decide)).2.1 (by decide)

/-- A successful `random.choice` pick is a member of its pool. -/
theorem unit_choice_mem (pool : List GUnit) (r : ℕ) (hne : pool ≠ []) :
    ∃ v ∈ pool, unit_choice pool r = some v := by
  have hlen : 0 < pool.length := List.length_pos.mpr hne
  have hr : r % pool.length < pool.length := Nat.mod_lt _ hlen
  exact ⟨pool[r % pool.length], List.getElem_mem hr,
    by simp [unit_choice, List.getElem?_eq_getElem hr]⟩

/-- Relation between a unit before and after drawing a fresh random target
from `pool`: identity and health are preserved and the new personal target
references some member of `pool`. -/
def retargeted_from (pool : List GUnit) (u u' : GUnit) : Prop :=
  u'.id = u.id ∧ u'.hp = u.hp ∧ ∃ v ∈ pool, u'.tgt = some (toUTgt v)

/-- Every unit processed by `retarget_all` over a non-empty pool is
retargeted onto some member of the pool. -/
theorem retarget_all_forall (pick : ℕ → ℕ) (pool : List GUnit) (hne : pool ≠ []) :
    ∀ (i : ℕ) (us : List GUnit),
      List.Forall₂ (retargeted_from pool) us (retarget_all pick pool i us) := by
  intro i us
  induction us generalizing i with
  | nil => exact List.Forall₂.nil
  | cons u us ih =>
      rw [retarget_all]
      refine List.Forall₂.cons ?_ (ih (i + 1))
      obtain ⟨v, hv, hvc⟩ := unit_choice_mem pool (pick i) hne
      exact ⟨rfl, rfl, v, hv, by rw [show ({ u with tgt := (unit_choice pool (pick i)).map toUTgt } : GUnit).tgt = (unit_choice pool (pick i)).map toUTgt from rfl, hvc]; rfl⟩

/-- Relation between a unit before and after `refresh_units_target` over an
army-target pool: units with a live (or castle) target are untouched, units
needing a new target draw some member of the pool. -/
def refresh_rel (pool : List GUnit) (u u' : GUnit) : Prop :=
  (needs_retarget u = false → u' = u) ∧
  (needs_retarget u = true → u'.id = u.id ∧ u'.hp = u.hp ∧
     ∃ v ∈ pool, u'.tgt = some (toUTgt v))

/-- Every unit processed by `refresh_go` over a non-empty pool satisfies
`refresh_rel`. -/
theorem refresh_go_forall (pick : ℕ → ℕ) (pool : List GUnit) (hne : pool ≠ []) :
    ∀ (i : ℕ) (us : List GUnit),
      List.Forall₂ (refresh_rel pool) us (refresh_go pick pool i us) := by
  intro i us
  induction us generalizing i with
  | nil => exact List.Forall₂.nil
  | cons u us ih =>
      rw [refresh_go]
      refine List.Forall₂.cons ?_ (ih (i + 1))
      cases hu : needs_retarget u with
      | false =>
          rw [if_neg (by simp [hu])]
          exact ⟨fun _ => rfl, fun hcon => absurd hcon (by simp [hu])⟩
      | true =>
          rw [if_pos (by simp [hu])]
          obtain ⟨v, hv, hvc⟩ := unit_choice_mem pool (pick i) hne
          refine ⟨fun hcon => absurd hcon (by simp [hu]), fun _ => ⟨rfl, rfl, v, hv, ?_⟩⟩
          rw [show ({ u with tgt := (unit_choice pool (pick i)).map toUTgt } : GUnit).tgt = (unit_choice pool (pick i)).map toUTgt from rfl, hvc]
          rfl

/-- Fixture: a constant index-pick oracle. -/
def pick0 : ℕ → ℕ := fun _ => 0

/-- Fixture for C5: the moving (absorbed) army's single unit, with no
personal target. -/
def c5_u1 : GUnit := { id := 1, hp := 5, tgt := none }

/-- Fixture for C5: the surviving army's single unit, targeting enemy
unit 9. -/
def c5_u2 : GUnit := { id := 2, hp := 5, tgt := some (UTgt.unit 9 3) }

/-- Fixture for C5: the mover, whose army-level target is the castle. -/
def c5_mover : BArmy := { position := 3, movement := 1, units := [c5_u1], target := some ATgt.castle }

/-- Fixture for C5: the survivor, with no army-level target. -/
def c5_survivor : BArmy := { position := 3, movement := 1, units := [c5_u2], target := none }

/-- C5 counterexample: the mover's target is the castle, so the claim says
every unit of the surviving merged army ends up targeting the castle; in
the code, however, `union_armies(mover, survivor)` copies the SURVIVOR's
target (here `None`) onto the mover's units, so nobody is retargeted:
the merged army keeps `c5_u2`'s old unit target and `c5_u1`'s empty
target. -/
theorem C5_counterexample :
    (union_armies c5_mover c5_survivor pick0).units = [c5_u2, c5_u1] ∧
    ¬ (∀ u ∈ (union_armies c5_mover c5_survivor pick0).units,
         u.tgt = some UTgt.castle) := by
  constructor
  · rfl
  · intro hall
    have h1 : c5_u2 ∈ (union_armies c5_mover c5_survivor pick0).units := by
      rw [show (union_armies c5_mover c5_survivor pick0).units = [c5_u2, c5_u1] from rfl]
      exact List.mem_cons_self _ _
    have := hall c5_u2 h1
    simp [c5_u2] at this

/-- C5 (amended): when two friendly armies merge, the SURVIVOR's target
determines the retargeting, and only the ABSORBED (moving) army's units
are affected: the merged army keeps the survivor's army-level target and
consists of the survivor's units (untouched) followed by the mover's
units, where — if the survivor's target is an enemy army — each of the
mover's units draws an independently chosen member of that army, if it is
the castle each of the mover's units targets the castle, and if the
survivor has no target the mover's units keep their old targets. -/
theorem C5_union_armies_amended (army1 army2 : BArmy) (pick : ℕ → ℕ) :
    (union_armies army1 army2 pick).target = army2.target ∧
    (union_armies army1 army2 pick).units
        = army2.units ++ (army1.copy_target army2.target pick).units ∧
    (∀ e : EArmy, army2.target = some (ATgt.army e) → e.units ≠ [] →
       List.Forall₂ (retargeted_from e.units) army1.units
         (army1.copy_target army2.target pick).units) ∧
    (army2.target = some ATgt.castle →
       (army1.copy_target army2.target pick).units
         = army1.units.map (fun u => { u with tgt := some UTgt.castle })) ∧
    (army2.target = none →
       (army1.copy_target army2.target pick).units = army1.units) := by
  refine ⟨rfl, rfl, ?_, ?_, ?_⟩
  · intro e he hne
    rw [he]
    rw [show (army1.copy_target (some (ATgt.army e)) pick).units
          = retarget_all pick e.units 0 army1.units from rfl]
    exact retarget_all_forall pick e.units hne 0 army1.units
  · intro he
    rw [he]
    rfl
  · intro he
    rw [he]
    rfl

/-- Fixture for the C5 witness: an enemy army serving as the survivor's
target. -/
def c5_pool : EArmy := { position := 4, units := [{ id := 7, hp := 2, tgt := none }] }

/-- Fixture for the C5 witness: a survivor whose army-level target is the
enemy army `c5_pool`. -/
def c5_survivor2 : BArmy :=
  { position := 3, movement := 1, units := [c5_u2], target := some (ATgt.army c5_pool) }

/-- Witness for C5 (amended): with the survivor targeting an enemy army,
each of the mover's units is retargeted onto some member of that army. -/
theorem C5_union_armies_amended_witness :
    List.Forall₂ (retargeted_from c5_pool.units) c5_mover.units
      (c5_mover.copy_target c5_survivor2.target pick0).units :=
  (C5_union_armies_amended c5_mover c5_survivor2 pick0).2.2.1 c5_pool rfl (by decide)

/-- Whether a unit's personal target, when it is a unit reference, is
alive. -/
def tgt_is_live (u : GUnit) : Bool :=
  match u.tgt with
  | some (UTgt.unit _ hp) => 0 < hp
  | some UTgt.castle => true
  | none => true

/-- Fixture for C6: an army about to move from cell 3 into cell 4. -/
def c6_army : BArmy :=
  { position := 3, movement := 1, units := [{ id := 1, hp := 5, tgt := none }], target := none }

/-- Fixture for C6: the enemy army in cell 4, whose first listed member is
dead (health 0) but still present in the unit list — dead units are only
purged at the end of a tick, after targeting has already run. -/
def c6_enemy : EArmy :=
  { position := 4,
    units := [{ id := 7, hp := 0, tgt := none }, { id := 8, hp := 2, tgt := none }] }

/-- C6 counterexample: in the about-to-move branch, `random.choice` draws
from the enemy army's raw unit list, so a member unit can be assigned a
DEAD unit (health 0) as its personal target — the draw is not restricted
to live units as the claim states. -/
theorem C6_counterexample :
    ((c6_army.get_target [c6_enemy] 100 pick0).1.units.all tgt_is_live) = false ∧
    (c6_army.get_target [c6_enemy] 100 pick0).2 = true := by decide

/-- C6 (amended): `Army.get_target` follows exactly this fixed selection
order: (1) an enemy army in the army's current cell (member units left
untouched); (2) otherwise an enemy army in the cell the army is about to
move into, in which case every member unit is individually assigned an
independently drawn random member of that army's unit list (which is not
filtered for liveness, so the drawn target may be dead) as its personal
target; (3) otherwise, if the enemy castle is within one cell, the castle,
with every member unit's personal target set to the castle; (4) otherwise
no target is acquired and it returns False. -/
theorem C6_get_target_amended (a : BArmy) (enemy_armies : List EArmy)
    (castle_position : ℤ) (pick : ℕ → ℕ) :
    (∀ e : EArmy, get_enemy_army_in_position a.position enemy_armies = some e →
       a.get_target enemy_armies castle_position pick
         = ({ a with target := some (ATgt.army e) }, true)) ∧
    (∀ e : EArmy, get_enemy_army_in_position a.position enemy_armies = none →
       get_enemy_army_in_position (a.position + a.movement) enemy_armies = some e →
       ((a.get_target enemy_armies castle_position pick).1.target = some (ATgt.army e) ∧
        (a.get_target enemy_armies castle_position pick).2 = true ∧
        (e.units ≠ [] →
           List.Forall₂ (retargeted_from e.units) a.units
             (a.get_target enemy_armies castle_position pick).1.units))) ∧
    (get_enemy_army_in_position a.position enemy_armies = none →
     get_enemy_army_in_position (a.position + a.movement) enemy_armies = none →
     |a.position - castle_position| ≤ 1 →
       a.get_target enemy_armies castle_position pick
         = ({ a with target := some ATgt.castle,
                     units := a.units.map (fun u => { u with tgt := some UTgt.castle }) },
            true)) ∧
    (get_enemy_army_in_position a.position enemy_armies = none →
     get_enemy_army_in_position (a.position + a.movement) enemy_armies = none →
     ¬ |a.position - castle_position| ≤ 1 →
       a.get_target enemy_armies castle_position pick
         = ({ a with target := none }, false)) := by
  refine ⟨?_, ?_, ?_, ?_⟩
  · intro e h1
    simp [BArmy.get_target, h1]
  · intro e h1 h2
    refine ⟨?_, ?_, ?_⟩
    · simp [BArmy.get_target, h1, h2]
    · simp [BArmy.get_target, h1, h2]
    · intro hne
      have hu : (a.get_target enemy_armies castle_position pick).1.units
          = retarget_all pick e.units 0 a.units := by
        simp [BArmy.get_target, h1, h2]
      rw [hu]
      exact retarget_all_forall pick e.units hne 0 a.units
  · intro h1 h2 h3
    simp [BArmy.get_target, h1, h2, h3]
  · intro h1 h2 h3
    simp [BArmy.get_target, h1, h2, h3]

/-- Fixture for the C6 witness: an enemy army occupying the army's own
current cell. -/
def c6_same_cell_enemy : EArmy :=
  { position := 3, units := [{ id := 9, hp := 1, tgt := none }] }

/-- Witness for C6 (amended): with an enemy army in the current cell the
collision branch fires. -/
theorem C6_get_target_amended_witness :
    c6_army.get_target [c6_same_cell_enemy] 100 pick0
      = ({ c6_army with target := some (ATgt.army c6_same_cell_enemy) }, true) :=
  (C6_get_target_amended c6_army [c6_same_cell_enemy] 100 pick0).1
    c6_same_cell_enemy (by decide)

/-- Fixture for C10: an army at cell 5 whose unit still points at a dead
enemy unit. -/
def c10_army : BArmy :=
  { position := 5, movement := -1,
    units := [{ id := 1, hp := 5, tgt := some (UTgt.unit 9 0) }], target := none }

/-- Fixture for C10: an enemy army occupying the same cell 5. -/
def c10_enemy : EArmy :=
  { position := 5, units := [{ id := 7, hp := 1, tgt := none }] }

/-- Fixture for the C10 witness: the pool the refreshed unit draws from. -/
def c10_pool : EArmy :=
  { position := 7, units := [{ id := 11, hp := 3, tgt := none }] }

/-- Fixture for the C10 witness: an army holding an army-level target whose
single unit needs retargeting. -/
def c10_refresh_army : BArmy :=
  { position := 6, movement := -1,
    units := [{ id := 2, hp := 4, tgt := some (UTgt.unit 9 0) }],
    target := some (ATgt.army c10_pool) }

/-- C10: when `Army.get_target` selects an enemy army occupying the army's
own current cell (the collision branch), no member unit's personal target
is modified: the unit list is returned untouched (units may keep a dead or
absent target) while the army-level target is set and `True` is returned;
units are only reassigned by `refresh_units_target`, which redraws a
member of the target army exactly for the units without a live non-castle
target. -/
theorem C10_collision_branch_frame (a : BArmy) (enemy_armies : List EArmy)
    (castle_position : ℤ) (pick : ℕ → ℕ) (e : EArmy)
    (h : get_enemy_army_in_position a.position enemy_armies = some e) :
    (a.get_target enemy_armies castle_position pick).1.units = a.units ∧
    (a.get_target enemy_armies castle_position pick).1.target = some (ATgt.army e) ∧
    (a.get_target enemy_armies castle_position pick).2 = true ∧
    (∀ (b : BArmy) (e2 : EArmy), b.target = some (ATgt.army e2) → e2.units ≠ [] →
       ∃ b2, b.refresh_units_target pick = some b2 ∧
         List.Forall₂ (refresh_rel e2.units) b.units b2.units) := by
  refine ⟨?_, ?_, ?_, ?_⟩
  · simp [BArmy.get_target, h]
  · simp [BArmy.get_target, h]
  · simp [BArmy.get_target, h]
  · intro b e2 hb hne
    refine ⟨{ b with units := refresh_go pick e2.units 0 b.units }, ?_, ?_⟩
    · have hni : ¬ (e2.units.isEmpty = true ∧ b.units.any needs_retarget = true) := by
        intro hcon
        exact hne (List.isEmpty_iff.mp hcon.1)
      simp [BArmy.refresh_units_target, hb, hni]
      intro hcon
      exact absurd hcon hne
    · exact refresh_go_forall pick e2.units hne 0 b.units

/-- Witness for C10 at concrete armies: the collision branch leaves the
unit (and its stale dead target) untouched, and a refresh over an
army-level target retargets the needy unit. -/
theorem C10_collision_branch_frame_witness :
    (c10_army.get_target [c10_enemy] 0 pick0).1.units = c10_army.units ∧
    (c10_army.get_target [c10_enemy] 0 pick0).1.target = some (ATgt.army c10_enemy) ∧
    (c10_army.get_target [c10_enemy] 0 pick0).2 = true ∧
    (∃ b2, c10_refresh_army.refresh_units_target pick0 = some b2 ∧
       List.Forall₂ (refresh_rel c10_pool.units) c10_refresh_army.units b2.units) :=
  let h := C10_collision_branch_frame c10_army [c10_enemy] 0 pick0 c10_enemy (by decide)
  ⟨h.1, h.2.1, h.2.2.1, h.2.2.2 c10_refresh_army c10_pool (by rfl) (by decide)⟩
